import Mathlib

/-!
# throttle: bandwidth limiting pipe

A shallow embedding of `src/throttle.c` and the properties proved about it.

Modelling conventions.

* The data model is the LP64 one: `size_t`, `time_t` and `long` are 64 bits wide, the
  `boolean` enum is 32 bits wide, the union of `struct fifomsg` occupies 8 bytes and is read
  little-endian.  Its union is kept as the raw 64-bit pattern `data`; each member is a view of
  that pattern.
* A `double` that only travels through the control channel is kept as its IEEE-754 binary64 bit
  pattern, so that `!=` on doubles (`dne`) is the C comparison, NaN and signed zeros included.
* Arithmetic of the pacing engine on doubles (`BSECS`, `TSECS`, `modf`) is carried out exactly,
  over the rationals; `dval` gives the rational value of a finite double.  The conversion of a
  double to `time_t` or `long` (`castInt`) is limited to the 64-bit range.
* `read`, `write`, `realloc`, the clock, the sleep primitive and the two signal flags are the
  environment: their results are arguments of the functions that call them.
* `stderr` is a list of structured lines, one constructor per `fprintf`/`perror` call, holding the
  operands of the call.
-/

namespace Throttle

/-! ## Constants and wire record -/

def DEFBLOCKSIZE : Nat := 512

def MESSAGE_MAGIC : Char := 'T'

def MESSAGE_VERSION : Nat := 0x0102

def CHANGE_NONE : Nat := 0
def CHANGE_UNIT : Nat := 1
def CHANGE_LIMIT : Nat := 2
def CHANGE_BLOCKSIZE : Nat := 4
def CHANGE_WINDOW : Nat := 8
def CHANGE_VERBOSE : Nat := 16

/-- The C `struct fifomsg`.  `data` is the 8-byte union as an unsigned 64-bit pattern. -/
structure fifomsg where
  magic : Char
  type : Char
  version : Nat
  data : Nat
deriving DecidableEq, Repr

/-- Value of `sizeof(struct fifomsg)`: two chars, an unsigned short, four bytes of padding and
the 8-byte union. -/
def sizeof_fifomsg : Int := 16

/-- Reading a 64-bit pattern as a signed 64-bit integer (`time_t`). -/
def toInt64 (n : Nat) : Int :=
  if n % 2 ^ 64 < 2 ^ 63 then ((n % 2 ^ 64 : Nat) : Int) else ((n % 2 ^ 64 : Nat) : Int) - 2 ^ 64

/-- The 64-bit pattern of a signed 64-bit integer. -/
def ofInt64 (i : Int) : Nat := (i % 2 ^ 64).toNat

/-- View `msg.data.Bps` (and `msg.data.unit`): the binary64 pattern. -/
def fifomsg.Bps (m : fifomsg) : Nat := m.data % 2 ^ 64

/-- View `msg.data.window`. -/
def fifomsg.window (m : fifomsg) : Int := toInt64 m.data

/-- View `msg.data.blocksize`. -/
def fifomsg.blocksize (m : fifomsg) : Nat := m.data % 2 ^ 64

/-- View `msg.data.verbose`: the low four bytes. -/
def fifomsg.verbose (m : fifomsg) : Nat := m.data % 2 ^ 32

/-- Result of `memset(&msg, 0, sizeof(msg))`. -/
def fifomsg.zero : fifomsg := ⟨Char.ofNat 0, Char.ofNat 0, 0, 0⟩

/-! ## IEEE-754 binary64 patterns -/

/-- A pattern is a NaN: exponent all ones, mantissa not zero. -/
def dnan (b : Nat) : Bool := decide (0x7FF0000000000000 < b % 2 ^ 63)

/-- A pattern is `+0.0` or `-0.0`. -/
def dzero (b : Nat) : Bool := decide (b % 2 ^ 63 = 0)

/-- The sign bit is set. -/
def dsign (b : Nat) : Bool := decide (b / 2 ^ 63 % 2 = 1)

/-- The C comparison `a != b` on doubles. -/
def dne (a b : Nat) : Bool :=
  dnan a || dnan b || (!(dzero a && dzero b) && decide (a % 2 ^ 64 ≠ b % 2 ^ 64))

/-- The C comparison `a > 0.0` on doubles. -/
def dpos (a : Nat) : Bool := !dnan a && !dzero a && !dsign a

/-- Rational value of a finite double; `0` for infinities and NaNs, which have none. -/
def dval (b : Nat) : ℚ :=
  let e : Nat := b / 2 ^ 52 % 2 ^ 11
  let m : Nat := b % 2 ^ 52
  let mag : ℚ :=
    if e = 0 then (m : ℚ) / 2 ^ 1074
    else if e = 2047 then 0
    else if e < 1075 then ((2 ^ 52 + m : Nat) : ℚ) / 2 ^ (1075 - e)
    else ((2 ^ 52 + m : Nat) : ℚ) * 2 ^ (e - 1075)
  if b / 2 ^ 63 % 2 = 1 then -mag else mag

/-! ## Configuration and diagnostics -/

/-- The live configuration: the globals `verbose`, `unit`, `unit_opt` and the three values
`fiforecv` updates through its pointer arguments. -/
structure RateConfig where
  verbose : Nat
  unit : Nat
  unit_opt : Char
  Bps : Nat
  window : Int
  blocksize : Nat
deriving DecidableEq, Repr

/-- A time value: `struct timespec` or `struct timeval`. -/
structure TIME_STRUCT where
  tv_sec : Int
  tv_subsec : Int
deriving DecidableEq, Repr

/-- One line written to `stderr`, with the operands of the call that wrote it. -/
inductive LogLine where
  | unitChanged (old new : Char)
  | limitChanged (oldBps unit : Nat) (unit_opt : Char) (newBps : Nat)
  | windowChanged (old new : Int)
  | blocksizeChanged (old new : Nat)
  | verboseChanged (old new : Nat)
  | invalidMessage
  | writeFifo
  | writeFifoFailed (nwrite : Int)
  | openFifo
  | stats (total : Nat) (total_unit : Char) (written : Nat) (written_unit : Char) (tsecs : ℚ)
      (byteswritten : Nat) (unit : Nat) (unit_opt : Char) (blocksize : Nat) (window : Int)
      (Bps : Nat)
  | syncMin (syncmin : ℚ)
  | reallocFailed
deriving DecidableEq, Repr

/-- The state `fiforecv` works on: the configuration and the diagnostic stream. -/
structure Recv where
  cfg : RateConfig
  stderr : List LogLine
deriving DecidableEq, Repr

/-! ## Control channel: sender -/

/-- One call of `write(fd, msg, sizeof(struct fifomsg))`: the record handed over and the value
the call returned. -/
structure WriteCall where
  msg : fifomsg
  nwrite : Int
deriving DecidableEq, Repr

/-- The C `writemsg`; `nwrite` is what `write` returns.  Gives the return value, the record as
handed to `write` and the diagnostic written. -/
def writemsg (nwrite : Int) (msg : fifomsg) : Int × fifomsg × List LogLine :=
  let msg := { msg with magic := MESSAGE_MAGIC, version := MESSAGE_VERSION }
  if nwrite = -1 then (1, msg, [LogLine.writeFifo])
  else if nwrite ≠ sizeof_fifomsg then (1, msg, [LogLine.writeFifoFailed nwrite])
  else (0, msg, [])

/-- State of a `fifosend` in progress: the `write` calls made and the diagnostics written. -/
structure SendState where
  calls : List WriteCall
  stderr : List LogLine
deriving DecidableEq, Repr

/-- One `if (changeargs & FLAG) { ...; if (writemsg(fd, &msg) != 0) THROW(...); }` block of
`fifosend`.  `wr k` is the value returned by the `k`-th call of `write` (counted from 0);
`Except.error` is the `THROW`. -/
def sendBlock (wr : Nat → Int) (requested : Bool) (msg : fifomsg) (s : SendState) :
    Except SendState SendState :=
  if requested then
    let r := writemsg (wr s.calls.length) msg
    let s1 : SendState := ⟨s.calls ++ [⟨r.2.1, wr s.calls.length⟩], s.stderr ++ r.2.2⟩
    if r.1 ≠ 0 then Except.error s1 else Except.ok s1
  else Except.ok s

/-- The part of `fifosend` after the channel is open, up to `retval = 0`. -/
def fifosendBody (g : RateConfig) (wr : Nat → Int) (changeargs : Nat) (Bps : Nat) (window : Int)
    (blocksize : Nat) : Except SendState SendState :=
  sendBlock wr (decide (changeargs &&& CHANGE_VERBOSE ≠ 0))
      { fifomsg.zero with type := 'v', data := g.verbose % 2 ^ 32 } ⟨[], []⟩ >>= fun s1 =>
  sendBlock wr (decide (changeargs &&& CHANGE_UNIT ≠ 0))
      { fifomsg.zero with type := g.unit_opt, data := g.unit % 2 ^ 64 } s1 >>= fun s2 =>
  sendBlock wr (decide (changeargs &&& CHANGE_LIMIT ≠ 0))
      { fifomsg.zero with type := '<', data := Bps % 2 ^ 64 } s2 >>= fun s3 =>
  sendBlock wr (decide (changeargs &&& CHANGE_WINDOW ≠ 0))
      { fifomsg.zero with type := 'w', data := ofInt64 window } s3 >>= fun s4 =>
  sendBlock wr (decide (changeargs &&& CHANGE_BLOCKSIZE ≠ 0))
      { fifomsg.zero with type := 's', data := blocksize % 2 ^ 64 } s4

/-- The C `fifosend`.  `g` holds the sender's globals (`verbose`, `unit`, `unit_opt`), `fd` is
what `open` returned.  Gives the return value and the `write` calls made. -/
def fifosend (g : RateConfig) (fd : Int) (wr : Nat → Int) (changeargs : Nat) (Bps : Nat)
    (window : Int) (blocksize : Nat) : Int × SendState :=
  if fd < 0 then (-1, ⟨[], [LogLine.openFifo]⟩)
  else
    match fifosendBody g wr changeargs Bps window blocksize with
    | Except.ok s => (0, s)
    | Except.error s => (-1, s)

/-! ## Control channel: listener -/

/-- What one `read(fd, &msg, sizeof(struct fifomsg))` gave: its return value and the buffer. -/
structure ReadResult where
  nread : Int
  msg : fifomsg
deriving DecidableEq, Repr

/-- The type tags of the six unit letters. -/
def isUnitType (c : Char) : Bool :=
  c = 'b' || c = 'k' || c = 'm' || c = 'B' || c = 'K' || c = 'M'

/-- The `switch (msg.type)` of `fiforecv`: the new state and the value left in `msgok`. -/
def recvSwitch (msg : fifomsg) (s : Recv) : Bool × Recv :=
  let c := s.cfg
  if isUnitType msg.type then
    if msg.type ≠ c.unit_opt then
      (true, ⟨{ c with unit := msg.Bps, unit_opt := msg.type },
        if c.verbose ≠ 0 then s.stderr ++ [LogLine.unitChanged c.unit_opt msg.type] else s.stderr⟩)
    else (true, s)
  else if msg.type = '<' then
    if dne msg.Bps c.Bps then
      (true, ⟨{ c with Bps := msg.Bps },
        if c.verbose ≠ 0 then
          s.stderr ++ [LogLine.limitChanged c.Bps c.unit c.unit_opt msg.Bps]
        else s.stderr⟩)
    else (true, s)
  else if msg.type = 'w' then
    if msg.window ≠ c.window then
      (true, ⟨{ c with window := msg.window },
        if c.verbose ≠ 0 then s.stderr ++ [LogLine.windowChanged c.window msg.window]
        else s.stderr⟩)
    else (true, s)
  else if msg.type = 's' then
    if msg.blocksize ≠ c.blocksize then
      (true, ⟨{ c with blocksize := msg.blocksize },
        if c.verbose ≠ 0 then s.stderr ++ [LogLine.blocksizeChanged c.blocksize msg.blocksize]
        else s.stderr⟩)
    else (true, s)
  else if msg.type = 'v' then
    if msg.verbose ≠ c.verbose then
      (true, ⟨{ c with verbose := msg.verbose },
        if msg.verbose ≠ 0 then s.stderr ++ [LogLine.verboseChanged c.verbose msg.verbose]
        else s.stderr⟩)
    else (true, s)
  else (false, s)

/-- One pass of the `do ... while (nread > 0)` loop of `fiforecv` after a `read` that returned
a positive count. -/
def recvOne (r : ReadResult) (s : Recv) : Recv :=
  let p : Bool × Recv :=
    if r.nread = sizeof_fifomsg ∧ r.msg.magic = MESSAGE_MAGIC ∧ r.msg.version = MESSAGE_VERSION
    then recvSwitch r.msg s
    else (false, s)
  if 0 < r.nread ∧ p.1 = false then ⟨p.2.cfg, p.2.stderr ++ [LogLine.invalidMessage]⟩ else p.2

/-- The C `fiforecv`.  The list holds the results of the successive `read` calls; a result that
is not positive ends the loop and is returned.  When the list is used up the next `read` finds
the non-blocking pipe empty and returns -1. -/
def fiforecv : List ReadResult → Recv → Int × Recv
  | [], s => (-1, s)
  | r :: rs, s => if r.nread ≤ 0 then (r.nread, s) else fiforecv rs (recvOne r s)

/-! ## Time abstraction macros -/

/-- Which clock and sleep primitives the build selected: `clock_gettime`/`nanosleep` over
`struct timespec`, or `gettimeofday`/`select` over `struct timeval`. -/
inductive TimeApi where
  | timespec
  | timeval
deriving DecidableEq, Repr

def TIME_1SEC_IN_SUBSECS : TimeApi → Int
  | TimeApi.timespec => 1000000000
  | TimeApi.timeval => 1000000

/-- BSECS: how many seconds does it take to send bytes at Bps. -/
def BSECS (bytes Bps : ℚ) : ℚ := bytes / Bps

/-- TSECS: convert time struct to seconds. -/
def TSECS (api : TimeApi) (tv : TIME_STRUCT) : ℚ :=
  (tv.tv_sec : ℚ) + (tv.tv_subsec : ℚ) / (TIME_1SEC_IN_SUBSECS api : ℚ)

def TIMERADD (api : TimeApi) (a b : TIME_STRUCT) : TIME_STRUCT :=
  let sec := a.tv_sec + b.tv_sec
  let sub := a.tv_subsec + b.tv_subsec
  if sub ≥ TIME_1SEC_IN_SUBSECS api then ⟨sec + 1, sub - TIME_1SEC_IN_SUBSECS api⟩ else ⟨sec, sub⟩

def TIMERSUB (api : TimeApi) (a b : TIME_STRUCT) : TIME_STRUCT :=
  let sec := a.tv_sec - b.tv_sec
  let sub := a.tv_subsec - b.tv_subsec
  if sub < 0 then ⟨sec - 1, sub + TIME_1SEC_IN_SUBSECS api⟩ else ⟨sec, sub⟩

/-! ## Statistics -/

/-- The loop of `unitdiv`: `k` iterations left, at index `i`.  Gives the final `i` and
`unitdiv`. -/
def unitdivLoop (n : Nat) : Nat → Nat → Nat → Nat → Nat × Nat
  | 0, _, unitdiv, i => (i, unitdiv)
  | k + 1, unitmax, unitdiv, i =>
    if n < unitmax then (i, unitdiv)
    else unitdivLoop n k (unitmax * 1024 % 2 ^ 64) (unitdiv * 1024 % 2 ^ 64) (i + 1)

/-- The C `unitdiv`: the scaled count and the unit letter stored through `nunit`. -/
def unitdiv (n : Nat) : Nat × Char :=
  let r := unitdivLoop n 6 10000 1 0
  (n / r.2, "BKMGTPE".toList.getD r.1 (Char.ofNat 0))

/-- The C `printstats`: the line it writes. -/
def printstats (api : TimeApi) (g : RateConfig) (totalbytes byteswritten : Nat)
    (elapsedtime : TIME_STRUCT) (blocksize : Nat) (window : Int) (Bps : Nat) : LogLine :=
  LogLine.stats (unitdiv totalbytes).1 (unitdiv totalbytes).2 (unitdiv byteswritten).1
    (unitdiv byteswritten).2 (TSECS api elapsedtime) byteswritten g.unit g.unit_opt blocksize
    window Bps

/-! ## Pacing engine -/

/-- Conversion to `int32_t`: the residue modulo 2^32, less 2^32 when it is 2^31 or more.  The
residue is compared as a natural number. -/
def toInt32 (i : Int) : Int :=
  if (i % 2 ^ 32).toNat < 2 ^ 31 then i % 2 ^ 32 else i % 2 ^ 32 - 2 ^ 32

/-- Rounding toward zero: the whole number left when the fraction is dropped. -/
def truncate (x : ℚ) : Int := if 0 ≤ x then ⌊x⌋ else ⌈x⌉

/-- Conversion of a double to a signed 64-bit integer type (`time_t`, `long`): the fraction is
dropped.  When what is left is outside the range of the type, C leaves the result undefined; the
model takes -2^63 there, the value the x86-64 conversion gives. -/
def castInt (x : ℚ) : Int :=
  if x ≤ -2 ^ 63 - 1 ∨ 2 ^ 63 ≤ x then -2 ^ 63 else truncate x

/-- The C `modf`: the fractional part and, where C stores through the pointer, the integral
part, which is a double. -/
def modf (x : ℚ) : ℚ × ℚ := (x - (truncate x : ℚ), (truncate x : ℚ))

/-- The threshold `syncmin` computed from the three clock readings of the calibration, named
after the variables that hold them. -/
def syncmin (api : TimeApi) (starttime currenttime elapsedtime : TIME_STRUCT) : ℚ :=
  let starttime := TIMERSUB api currenttime starttime
  let currenttime := TIMERSUB api elapsedtime currenttime
  let currenttime := TIMERADD api starttime currenttime
  (TSECS api currenttime / 2) / 3

/-- The value given to `synctime` before `TIME_SLEEP(&synctime)`. -/
def synctime (api : TimeApi) (sync : ℚ) : TIME_STRUCT :=
  let fractional := (modf sync).1
  let integral := (modf sync).2
  let sub := castInt (fractional * (TIME_1SEC_IN_SUBSECS api : ℚ))
  ⟨castInt integral,
    if sub ≥ TIME_1SEC_IN_SUBSECS api then TIME_1SEC_IN_SUBSECS api - 1 else sub⟩

/-- The argument of the `TIME_SLEEP` call made for `sync`, if one is made. -/
def sleepRequest (api : TimeApi) (syncmin sync : ℚ) : Option TIME_STRUCT :=
  if sync ≥ syncmin then some (synctime api sync) else none

/-- The exceptions of `throttle`. -/
inductive Stop where
  | gettime_error
  | read_error
  | write_error
  | sleep_error
deriving DecidableEq, Repr

/-- What a `read` or `write` on the data path gave: a byte count, an interruption (`EINTR`) or
another failure. -/
inductive IoResult where
  | count (n : Nat)
  | eintr
  | failed
deriving DecidableEq, Repr

/-- The variables of `throttle` that live across iterations.  `cfg` holds the globals and the
locals `Bps`, `window`; `cfg.blocksize` is the local `newblocksize`, the one `fiforecv` gets a
pointer to.  `blocksize` is the local `blocksize`, the size of the block buffer.  `sleeps` lists
the arguments of the `TIME_SLEEP` calls made so far. -/
structure Engine where
  cfg : RateConfig
  blocksize : Nat
  bytesread : Int
  byteswritten : Nat
  totalbytes : Nat
  starttime : TIME_STRUCT
  elapsedtime : TIME_STRUCT
  showstats : Bool
  checkfifo : Bool
  done : Bool
  stderr : List LogLine
  sleeps : List TIME_STRUCT
deriving DecidableEq, Repr

/-- The environment of one pass from the window test (or from `resync`) to the sleep: the signals
delivered since the flags were last looked at, what the control channel holds if it is polled,
and what `TIME_GET` gives (`none` when it fails). -/
structure Pass where
  usr1 : Bool
  usr2 : Bool
  fifo : List ReadResult
  now : Option TIME_STRUCT
deriving DecidableEq, Repr

/-- The environment of one iteration of the main loop.  `resyncs` holds one pass for every sleep
of the iteration that a signal interrupts; the sleep of the last pass completes, or fails when
`sleepFails`. -/
structure IterEnv where
  reallocOk : Bool
  reads : List IoResult
  first : Pass
  resyncs : List Pass
  sleepFails : Bool
  writes : List IoResult
deriving DecidableEq, Repr

/-- The block at the top of the loop body that resizes the buffer. -/
def resizeBlock (reallocOk : Bool) (e : Engine) : Engine :=
  if e.blocksize ≠ e.cfg.blocksize then
    if reallocOk then { e with blocksize := e.cfg.blocksize }
    else { e with cfg := { e.cfg with blocksize := e.blocksize },
                  stderr := e.stderr ++ [LogLine.reallocFailed] }
  else e

/-- The inner read loop: what is left of `nleft` and the value of `done`.  A `read` returns at
most the count asked for; when the list is used up the input is at end of stream. -/
def readLoop : List IoResult → Nat → Except Stop (Nat × Bool)
  | [], nleft => Except.ok (nleft, true)
  | IoResult.failed :: _, _ => Except.error Stop.read_error
  | IoResult.eintr :: rs, nleft =>
    if nleft > 0 then readLoop rs nleft else Except.ok (nleft, false)
  | IoResult.count n :: rs, nleft =>
    if n = 0 then Except.ok (nleft, true)
    else if nleft - n > 0 then readLoop rs (nleft - n)
    else Except.ok (nleft - n, false)

/-- The write loop: what is left of `nleft`.  When the list is used up the output takes all
that is left in one call. -/
def writeLoop : List IoResult → Nat → Except Stop Nat
  | [], _ => Except.ok 0
  | r :: rs, nleft =>
    if nleft > 0 then
      match r with
      | IoResult.count n => if n = 0 then Except.error Stop.write_error else writeLoop rs (nleft - n)
      | IoResult.eintr => writeLoop rs nleft
      | IoResult.failed => Except.error Stop.write_error
    else Except.ok nleft

/-- The statement `bytesread += nread`. -/
def addRead (nread : Nat) (e : Engine) : Engine :=
  { e with bytesread := toInt32 (e.bytesread + (nread : Int)) }

/-- The window-boundary test, made after `bytesread += nread`. -/
def windowTest (e : Engine) : Bool :=
  decide (e.elapsedtime.tv_sec ≥ e.cfg.window) || decide (e.bytesread < 0)

/-- The signals of a pass set the two flags. -/
def raiseFlags (p : Pass) (e : Engine) : Engine :=
  { e with showstats := e.showstats || p.usr1, checkfifo := e.checkfifo || p.usr2 }

/-- The call `fiforecv(fd, &Bps, &window, &newblocksize)`. -/
def pollFifo (reads : List ReadResult) (e : Engine) : Engine :=
  { e with cfg := (fiforecv reads ⟨e.cfg, e.stderr⟩).2.cfg,
           stderr := (fiforecv reads ⟨e.cfg, e.stderr⟩).2.stderr }

/-- The block `if (verbose || showstats) { ... }` of the branch taken at a window boundary. -/
def reportAtReset (api : TimeApi) (currenttime : TIME_STRUCT) (e : Engine) : Engine :=
  if e.cfg.verbose ≠ 0 ∨ e.showstats = true then
    { e with elapsedtime := TIMERSUB api currenttime e.starttime,
             stderr := e.stderr ++ [printstats api e.cfg e.totalbytes e.byteswritten
               (TIMERSUB api currenttime e.starttime) e.blocksize e.cfg.window e.cfg.Bps],
             showstats := false }
  else e

/-- The statement `if (fd >= 0) fiforecv(...)` of the branch taken at a window boundary. -/
def pollAtReset (fd : Int) (reads : List ReadResult) (e : Engine) : Engine :=
  if fd ≥ 0 then pollFifo reads e else e

/-- The five assignments that start a window. -/
def startWindow (currenttime : TIME_STRUCT) (nread : Nat) (e : Engine) : Engine :=
  { e with starttime := currenttime, elapsedtime := ⟨0, 0⟩,
           bytesread := toInt32 (nread : Int), byteswritten := 0 }

/-- The branch taken at a window boundary: the new state and `sync`. -/
def windowReset (api : TimeApi) (fd : Int) (p : Pass) (nread : Nat) (e : Engine) :
    Except Stop (Engine × ℚ) :=
  match p.now with
  | none => Except.error Stop.gettime_error
  | some currenttime =>
    let e3 : Engine := startWindow currenttime nread
      (pollAtReset fd p.fifo (reportAtReset api currenttime (raiseFlags p e)))
    Except.ok (e3, BSECS (e3.bytesread : ℚ) (dval e3.cfg.Bps))

/-- The block `if (fd >= 0 && checkfifo) { ... }` after the label `resync`. -/
def pollAtResync (fd : Int) (reads : List ReadResult) (e : Engine) : Engine :=
  if fd ≥ 0 ∧ e.checkfifo = true then { pollFifo reads e with checkfifo := false } else e

/-- The statement `TIMERSUB(currenttime, starttime, elapsedtime)`. -/
def measureElapsed (api : TimeApi) (currenttime : TIME_STRUCT) (e : Engine) : Engine :=
  { e with elapsedtime := TIMERSUB api currenttime e.starttime }

/-- The block `if (showstats) { ... }` after the label `resync`. -/
def reportAtResync (api : TimeApi) (e : Engine) : Engine :=
  if e.showstats = true then
    { e with stderr := e.stderr ++ [printstats api e.cfg e.totalbytes e.byteswritten
               e.elapsedtime e.blocksize e.cfg.window e.cfg.Bps],
             showstats := false }
  else e

/-- The other branch, from the label `resync`: the new state and `sync`. -/
def computeSync (api : TimeApi) (fd : Int) (p : Pass) (e : Engine) : Except Stop (Engine × ℚ) :=
  match p.now with
  | none => Except.error Stop.gettime_error
  | some currenttime =>
    let e3 : Engine := reportAtResync api
      (measureElapsed api currenttime (pollAtResync fd p.fifo (raiseFlags p e)))
    Except.ok (e3, BSECS (e3.bytesread : ℚ) (dval e3.cfg.Bps) - TSECS api e3.elapsedtime)

/-- From `if (sync >= syncmin)` to the end of the sleeping: each pass of `rest` is a `goto resync`
after an interrupted sleep. -/
def sleepThen (api : TimeApi) (syncmin : ℚ) (fd : Int) (sleepFails : Bool) :
    List Pass → Engine × ℚ → Except Stop Engine
  | rest, (e, sync) =>
    match sleepRequest api syncmin sync with
    | none => Except.ok e
    | some d =>
      match rest with
      | [] =>
        if sleepFails then Except.error Stop.sleep_error
        else Except.ok { e with sleeps := e.sleeps ++ [d] }
      | p :: ps =>
        computeSync api fd p { e with sleeps := e.sleeps ++ [d] } >>=
          sleepThen api syncmin fd sleepFails ps

/-- The write loop and the two counters updated after it. -/
def writeBlock (writes : List IoResult) (nread : Nat) (e : Engine) : Except Stop Engine :=
  writeLoop writes nread >>= fun nleft =>
    Except.ok { e with byteswritten := (e.byteswritten + (nread - nleft)) % 2 ^ 64,
                       totalbytes := (e.totalbytes + (nread - nleft)) % 2 ^ 64 }

/-- The body of the main loop after the buffer was resized. -/
def iterationBody (api : TimeApi) (syncmin : ℚ) (fd : Int) (env : IterEnv) (e : Engine) :
    Except Stop Engine :=
  readLoop env.reads e.blocksize >>= fun r =>
    let nread := e.blocksize - r.1
    let e1 := addRead nread { e with done := r.2 }
    (if windowTest e1 = true then windowReset api fd env.first nread e1
      else computeSync api fd env.first e1) >>=
    sleepThen api syncmin fd env.sleepFails env.resyncs >>=
    writeBlock env.writes nread

/-- One iteration of the main loop. -/
def iteration (api : TimeApi) (syncmin : ℚ) (fd : Int) (env : IterEnv) (e : Engine) :
    Except Stop Engine :=
  iterationBody api syncmin fd env (resizeBlock env.reallocOk e)

/-- The main loop `do ... while (!done)`, one environment per iteration. -/
def mainLoop (api : TimeApi) (syncmin : ℚ) (fd : Int) : List IterEnv → Engine → Except Stop Engine
  | [], e => Except.ok e
  | env :: envs, e =>
    iteration api syncmin fd env e >>= fun e1 =>
      if e1.done = true then Except.ok e1 else mainLoop api syncmin fd envs e1

/-- The state at the entry of the main loop; `elapsedtime` is the third clock reading of the
calibration. -/
def loopEntry (g : RateConfig) (Bps : Nat) (window : Int) (blocksize : Nat)
    (elapsedtime : TIME_STRUCT) (stderr : List LogLine) : Engine :=
  { cfg := { g with Bps := Bps, window := window, blocksize := blocksize },
    blocksize := blocksize, bytesread := 0, byteswritten := 0, totalbytes := 0,
    starttime := elapsedtime, elapsedtime := ⟨window, elapsedtime.tv_subsec⟩,
    showstats := false, checkfifo := false, done := false, stderr := stderr, sleeps := [] }

/-- The environment of a call of `throttle`: the three clock readings of the calibration (`none`
when a clock or sleep call of the calibration fails), whether `malloc` succeeds, and the
iterations. -/
structure ThrottleEnv where
  calibration : Option (TIME_STRUCT × TIME_STRUCT × TIME_STRUCT)
  mallocOk : Bool
  iterations : List IterEnv

/-- The C `throttle`: the return value and, once the loop was entered, the last state. -/
def throttle (api : TimeApi) (g : RateConfig) (Bps : Nat) (window : Int) (blocksize : Nat)
    (fd : Int) (env : ThrottleEnv) : Int × Option Engine :=
  match env.calibration with
  | none => (-1, none)
  | some (starttime, currenttime, elapsedtime) =>
    let stderr : List LogLine :=
      if g.verbose ≠ 0 then [LogLine.syncMin (syncmin api starttime currenttime elapsedtime)]
      else []
    if env.mallocOk = false then (-1, none)
    else
      match mainLoop api (syncmin api starttime currenttime elapsedtime) fd env.iterations
          (loopEntry g Bps window blocksize elapsedtime stderr) with
      | Except.ok e => (0, some e)
      | Except.error _ => (-1, none)

/-! ## Vocabulary of the control-channel properties -/

/-- The type tag is one `fiforecv` knows. -/
def recognisedType (c : Char) : Bool :=
  isUnitType c || c = '<' || c = 'w' || c = 's' || c = 'v'

/-- The record is accepted: size, magic and version match exactly and the type is known. -/
def accepted (r : ReadResult) : Bool :=
  decide (r.nread = sizeof_fifomsg) && decide (r.msg.magic = MESSAGE_MAGIC) &&
    decide (r.msg.version = MESSAGE_VERSION) && recognisedType r.msg.type

/-- The record is delivered by a `read` (positive count) and is not accepted. -/
def discarded (r : ReadResult) : Bool := decide (0 < r.nread) && !accepted r

/-- A well-formed record as `fiforecv` sees it after a full `read`. -/
def wellFormed (type : Char) (data : Nat) : ReadResult :=
  ⟨sizeof_fifomsg, ⟨MESSAGE_MAGIC, type, MESSAGE_VERSION, data⟩⟩

/-- The records the requested changes call for, in the order verbosity, unit, limit, window,
block size, each with the constant magic and version and its payload. -/
def requestedRecords (g : RateConfig) (changeargs : Nat) (Bps : Nat) (window : Int)
    (blocksize : Nat) : List fifomsg :=
  (if changeargs &&& CHANGE_VERBOSE ≠ 0
    then [⟨MESSAGE_MAGIC, 'v', MESSAGE_VERSION, g.verbose % 2 ^ 32⟩] else []) ++
  (if changeargs &&& CHANGE_UNIT ≠ 0
    then [⟨MESSAGE_MAGIC, g.unit_opt, MESSAGE_VERSION, g.unit % 2 ^ 64⟩] else []) ++
  (if changeargs &&& CHANGE_LIMIT ≠ 0
    then [⟨MESSAGE_MAGIC, '<', MESSAGE_VERSION, Bps % 2 ^ 64⟩] else []) ++
  (if changeargs &&& CHANGE_WINDOW ≠ 0
    then [⟨MESSAGE_MAGIC, 'w', MESSAGE_VERSION, ofInt64 window⟩] else []) ++
  (if changeargs &&& CHANGE_BLOCKSIZE ≠ 0
    then [⟨MESSAGE_MAGIC, 's', MESSAGE_VERSION, blocksize % 2 ^ 64⟩] else [])

/-- The channel delivers to the listener what the sender wrote: one `read` per `write`, with
the count written and the record. -/
def delivered (calls : List WriteCall) : List ReadResult :=
  calls.map fun c => ⟨c.nwrite, c.msg⟩

/-- The bounds the command line enforces at start-up: limit above zero, window and block size
at least one. -/
def validConfig (c : RateConfig) : Prop := dpos c.Bps = true ∧ 1 ≤ c.window ∧ 1 ≤ c.blocksize

/-- The payload of a record obeys the bound of the field its type tag selects. -/
def payloadInBounds (r : ReadResult) : Prop :=
  (r.msg.type = '<' → dpos r.msg.Bps = true) ∧ (r.msg.type = 'w' → 1 ≤ r.msg.window) ∧
    (r.msg.type = 's' → 1 ≤ r.msg.blocksize)

/-- The pattern of the double `100.0`. -/
def d100 : Nat := 0x4059000000000000

/-- The pattern of the double `1.0`. -/
def d1 : Nat := 0x3FF0000000000000

/-- The pattern of a quiet NaN. -/
def dNaN : Nat := 0x7FF8000000000000

/-- The pattern of the double `200.0`. -/
def d200 : Nat := 0x4069000000000000

/-- A listener configuration as `main` sets it up for `throttle 100`. -/
def cfgQuiet100 : RateConfig := ⟨0, d1, 'B', d100, 60, 512⟩

/-- A listener configuration as `main` sets it up for `throttle -v 100`. -/
def cfgVerbose100 : RateConfig := ⟨1, d1, 'B', d100, 60, 512⟩

/-- The records `fifosend` builds for the requested changes, before `writemsg` stamps them. -/
def builtRecords (g : RateConfig) (changeargs : Nat) (Bps : Nat) (window : Int)
    (blocksize : Nat) : List fifomsg :=
  (if changeargs &&& CHANGE_VERBOSE ≠ 0
    then [{ fifomsg.zero with type := 'v', data := g.verbose % 2 ^ 32 }] else []) ++
  (if changeargs &&& CHANGE_UNIT ≠ 0
    then [{ fifomsg.zero with type := g.unit_opt, data := g.unit % 2 ^ 64 }] else []) ++
  (if changeargs &&& CHANGE_LIMIT ≠ 0
    then [{ fifomsg.zero with type := '<', data := Bps % 2 ^ 64 }] else []) ++
  (if changeargs &&& CHANGE_WINDOW ≠ 0
    then [{ fifomsg.zero with type := 'w', data := ofInt64 window }] else []) ++
  (if changeargs &&& CHANGE_BLOCKSIZE ≠ 0
    then [{ fifomsg.zero with type := 's', data := blocksize % 2 ^ 64 }] else [])

/-- What `writemsg` does to a record before it is written. -/
def stamp (m : fifomsg) : fifomsg :=
  { m with magic := MESSAGE_MAGIC, version := MESSAGE_VERSION }

/-- A run of `sendBlock`s, all requested, over a list of records. -/
def sendAll (wr : Nat → Int) : List fifomsg → SendState → Except SendState SendState
  | [], s => Except.ok s
  | m :: ms, s => sendBlock wr true m s >>= sendAll wr ms

/-- The state carried by either outcome. -/
def outcomeState : Except SendState SendState → SendState
  | Except.ok s => s
  | Except.error s => s

/-- The outcome is not a `THROW`. -/
def outcomeOk : Except SendState SendState → Bool
  | Except.ok _ => true
  | Except.error _ => false

/-- A state in the middle of a window, as the loop reaches it on a listener started with
`throttle -s blocksize 100`: nothing read yet in the window, no time measured yet. -/
def midWindow (blocksize : Nat) : Engine :=
  { cfg := { cfgQuiet100 with blocksize := blocksize }, blocksize := blocksize, bytesread := 0,
    byteswritten := 0, totalbytes := 0, starttime := ⟨5, 0⟩, elapsedtime := ⟨0, 0⟩,
    showstats := false, checkfifo := false, done := false, stderr := [], sleeps := [] }

/-- A pass without signals and with an empty control channel, the clock reading `now`. -/
def quietPass (now : TIME_STRUCT) : Pass := ⟨false, false, [], some now⟩

/-- The first iteration of the run that shows a mid-window resize: a block of 512 bytes, read
at the clock reading 5 s. -/
def resizeEnv1 : IterEnv := ⟨true, [IoResult.count 512], quietPass ⟨5, 0⟩, [], false, []⟩

/-- The second iteration: a block of 512 bytes; SIGUSR2 has arrived and the control channel
holds a block-size record with payload 1024. -/
def resizeEnv2 : IterEnv :=
  ⟨true, [IoResult.count 512], ⟨false, true, [wellFormed 's' 1024], some ⟨10, 120000000⟩⟩, [],
    false, []⟩

/-- The state of that run after its first two iterations: the block size in use is still 512,
the poll of the second iteration has left a pending block size of 1024, and the window that
began at 5 s has 1024 bytes read and written. -/
def pendingResize : Engine :=
  { cfg := { cfgQuiet100 with blocksize := 1024 }, blocksize := 512, bytesread := 1024,
    byteswritten := 1024, totalbytes := 1024, starttime := ⟨5, 0⟩,
    elapsedtime := ⟨5, 120000000⟩, showstats := false, checkfifo := false, done := false,
    stderr := [], sleeps := [⟨5, 120000000⟩, ⟨5, 120000000⟩] }

/-- What a finished run wrote: the cumulative total and the flag `done`. -/
def written (r : Except Stop Engine) : Option (Nat × Bool) :=
  match r with
  | Except.ok e => some (e.totalbytes, e.done)
  | Except.error _ => none

/-- The index of the unit a byte count is shown in: the least `i` in 0..6 with
`n < 10000 * 1024^i`, the product taken modulo 2^64; 6 when there is none. -/
def unitIndex (n : Nat) : Nat :=
  ((List.range 7).find? fun i => decide (n < 10000 * 1024 ^ i % 2 ^ 64)).getD 6

/-- The pair a byte count is shown as: the count divided by `1024^i`, and the `i`-th letter of
`"BKMGTPE"`, for `i` the index of its unit. -/
def scaledCount (n : Nat) : Nat × Char :=
  (n / (1024 ^ unitIndex n % 2 ^ 64), "BKMGTPE".toList.getD (unitIndex n) (Char.ofNat 0))

/-! ## Control channel: properties -/

theorem recvSwitch_cfg_congr (m : fifomsg) (s t : Recv) (h : s.cfg = t.cfg) :
    (recvSwitch m s).2.cfg = (recvSwitch m t).2.cfg ∧ (recvSwitch m s).1 = (recvSwitch m t).1 := by
  unfold recvSwitch
  simp only [h]
  split_ifs <;> simp_all

theorem recvOne_cfg_congr (r : ReadResult) (s t : Recv) (h : s.cfg = t.cfg) :
    (recvOne r s).cfg = (recvOne r t).cfg := by
  have h1 := recvSwitch_cfg_congr r.msg s t h
  unfold recvOne
  by_cases hc : r.nread = sizeof_fifomsg ∧ r.msg.magic = MESSAGE_MAGIC ∧
      r.msg.version = MESSAGE_VERSION
  · simp only [hc, and_self, if_true]
    rw [h1.2]
    split_ifs <;> simp [h1.1]
  · simp only [hc, if_false]
    split_ifs <;> simp [h]

theorem fiforecv_cfg_congr (reads : List ReadResult) :
    ∀ s t : Recv, s.cfg = t.cfg →
      (fiforecv reads s).2.cfg = (fiforecv reads t).2.cfg ∧
        (fiforecv reads s).1 = (fiforecv reads t).1 := by
  induction reads with
  | nil => intro s t h; simp [fiforecv, h]
  | cons r rs ih =>
    intro s t h
    unfold fiforecv
    split_ifs
    · simp [h]
    · exact ih _ _ (recvOne_cfg_congr r s t h)

theorem recvSwitch_unrecognised (m : fifomsg) (s : Recv) (h : recognisedType m.type = false) :
    recvSwitch m s = (false, s) := by
  simp only [recognisedType, Bool.or_eq_false_iff, decide_eq_false_iff_not] at h
  obtain ⟨⟨⟨⟨h1, h2⟩, h3⟩, h4⟩, h5⟩ := h
  simp [recvSwitch, h1, h2, h3, h4, h5]

theorem recvOne_discarded (r : ReadResult) (s : Recv) (h : discarded r = true) :
    recvOne r s = ⟨s.cfg, s.stderr ++ [LogLine.invalidMessage]⟩ := by
  simp only [discarded, Bool.and_eq_true, decide_eq_true_eq, Bool.not_eq_true'] at h
  obtain ⟨hpos, hbad⟩ := h
  simp only [accepted, Bool.and_eq_false_iff, decide_eq_false_iff_not] at hbad
  unfold recvOne
  by_cases hc : r.nread = sizeof_fifomsg ∧ r.msg.magic = MESSAGE_MAGIC ∧
      r.msg.version = MESSAGE_VERSION
  · have hty : recognisedType r.msg.type = false := by
      rcases hbad with ((h | h) | h) | h
      · exact absurd hc.1 h
      · exact absurd hc.2.1 h
      · exact absurd hc.2.2 h
      · simpa using h
    simp [hc, recvSwitch_unrecognised r.msg s hty, hpos, sizeof_fifomsg]
  · simp [hc, hpos]

/-- C2: a record delivered by a read whose size, magic or version does not match exactly, or
whose type tag is unrecognised, leaves every configuration field as it was (only the
invalid-message diagnostic is written), and the configuration and return value of fiforecv on a
batch equal those on the same batch with such records removed. -/
theorem fiforecv_discards_invalid (reads : List ReadResult) (s : Recv) :
    (∀ r : ReadResult, discarded r = true → (recvOne r s).cfg = s.cfg) ∧
      (fiforecv reads s).2.cfg = (fiforecv (reads.filter fun r => !discarded r) s).2.cfg ∧
      (fiforecv reads s).1 = (fiforecv (reads.filter fun r => !discarded r) s).1 := by
  refine ⟨fun r h => by rw [recvOne_discarded r s h], ?_⟩
  induction reads generalizing s with
  | nil => simp [fiforecv]
  | cons r rs ih =>
    by_cases hd : discarded r = true
    · have hpos : ¬ r.nread ≤ 0 := by
        simp only [discarded, Bool.and_eq_true, decide_eq_true_eq] at hd
        omega
      have hf : (List.filter (fun r => !discarded r) (r :: rs)) =
          List.filter (fun r => !discarded r) rs := by simp [List.filter, hd]
      rw [hf]
      have hstep : fiforecv (r :: rs) s = fiforecv rs (recvOne r s) := by
        simp [fiforecv, hpos]
      rw [hstep]
      have hcfg : (recvOne r s).cfg = s.cfg := by rw [recvOne_discarded r s hd]
      have h1 := ih (recvOne r s)
      have h2 := fiforecv_cfg_congr (List.filter (fun r => !discarded r) rs) (recvOne r s) s hcfg
      exact ⟨h1.1.trans h2.1, h1.2.trans h2.2⟩
    · have hf : (List.filter (fun r => !discarded r) (r :: rs)) =
          r :: List.filter (fun r => !discarded r) rs := by simp [List.filter, hd]
      rw [hf]
      unfold fiforecv
      split_ifs
      · exact ⟨rfl, rfl⟩
      · exact ih (recvOne r s)

theorem sendBlock_true_ok (wr : Nat → Int) (m : fifomsg) (s : SendState)
    (h : wr s.calls.length = sizeof_fifomsg) :
    sendBlock wr true m s = Except.ok ⟨s.calls ++ [⟨stamp m, wr s.calls.length⟩], s.stderr⟩ := by
  have h1 : ¬ (sizeof_fifomsg = -1) := by decide
  simp [sendBlock, writemsg, h, stamp, h1]

theorem sendBlock_true_error (wr : Nat → Int) (m : fifomsg) (s : SendState)
    (h : wr s.calls.length ≠ sizeof_fifomsg) :
    ∃ e, sendBlock wr true m s = Except.error ⟨s.calls ++ [⟨stamp m, wr s.calls.length⟩], e⟩ := by
  by_cases h1 : wr s.calls.length = -1
  · exact ⟨s.stderr ++ [LogLine.writeFifo], by simp [sendBlock, writemsg, h1, stamp]⟩
  · exact ⟨s.stderr ++ [LogLine.writeFifoFailed (wr s.calls.length)],
      by simp [sendBlock, writemsg, h1, h, stamp]⟩

theorem sendAll_spec (wr : Nat → Int) (ms : List fifomsg) :
    ∀ s : SendState, ∃ new : List WriteCall,
      (outcomeState (sendAll wr ms s)).calls = s.calls ++ new ∧
      new.map (fun c => c.msg) = (ms.map stamp).take new.length ∧
      new.length ≤ ms.length ∧
      new.map (fun c => c.nwrite) =
        (List.range new.length).map (fun i => wr (s.calls.length + i)) ∧
      (∀ i, i + 1 < new.length → wr (s.calls.length + i) = sizeof_fifomsg) ∧
      ((outcomeOk (sendAll wr ms s) = true ∧ new.length = ms.length ∧
          ∀ i, i < new.length → wr (s.calls.length + i) = sizeof_fifomsg) ∨
        (outcomeOk (sendAll wr ms s) = false ∧ 0 < new.length ∧
          wr (s.calls.length + (new.length - 1)) ≠ sizeof_fifomsg)) := by
  induction ms with
  | nil =>
    intro s
    exact ⟨[], by simp [sendAll, outcomeState, outcomeOk]⟩
  | cons m ms ih =>
    intro s
    by_cases h : wr s.calls.length = sizeof_fifomsg
    · obtain ⟨new, h1, h2, h3, h4, h5, h6⟩ :=
        ih ⟨s.calls ++ [⟨stamp m, wr s.calls.length⟩], s.stderr⟩
      have hrun : sendAll wr (m :: ms) s =
          sendAll wr ms ⟨s.calls ++ [⟨stamp m, wr s.calls.length⟩], s.stderr⟩ := by
        simp only [sendAll, sendBlock_true_ok wr m s h]
        rfl
      have hlen : (s.calls ++ [(⟨stamp m, wr s.calls.length⟩ : WriteCall)]).length =
          s.calls.length + 1 := by simp
      simp only [hlen] at h4 h5 h6
      refine ⟨⟨stamp m, wr s.calls.length⟩ :: new, ?_, ?_, ?_, ?_, ?_, ?_⟩
      · rw [hrun, h1]; simp
      · simp [h2]
      · simp; exact h3
      · simp only [List.map_cons, List.length_cons, List.range_succ_eq_map, List.map_map]
        rw [h4]
        simp only [Nat.add_zero, List.cons.injEq, true_and]
        apply List.map_congr_left
        intro i _
        simp only [Function.comp, Nat.succ_eq_add_one]
        congr 1
        omega
      · intro i hi
        cases i with
        | zero => simpa using h
        | succ j =>
          have := h5 j (by simpa using hi)
          rw [← this]; congr 1; omega
      · rw [hrun]
        rcases h6 with ⟨ha, hb, hc⟩ | ⟨ha, hb, hc⟩
        · left
          refine ⟨ha, by simp [hb], ?_⟩
          intro i hi
          cases i with
          | zero => simpa using h
          | succ j =>
            have := hc j (by simpa using hi)
            rw [← this]; congr 1; omega
        · right
          refine ⟨ha, by simp, ?_⟩
          have e : s.calls.length + ((⟨stamp m, wr s.calls.length⟩ :: new : List WriteCall).length - 1)
              = s.calls.length + 1 + (new.length - 1) := by
            simp only [List.length_cons]; omega
          rw [e]; exact hc
    · obtain ⟨e, he⟩ := sendBlock_true_error wr m s h
      have hrun : sendAll wr (m :: ms) s =
          Except.error ⟨s.calls ++ [⟨stamp m, wr s.calls.length⟩], e⟩ := by
        simp only [sendAll, he]
        rfl
      refine ⟨[⟨stamp m, wr s.calls.length⟩], ?_⟩
      rw [hrun]
      simp [outcomeState, outcomeOk, h, List.range_succ_eq_map]

theorem requestedRecords_eq (g : RateConfig) (changeargs Bps : Nat) (window : Int)
    (blocksize : Nat) :
    requestedRecords g changeargs Bps window blocksize =
      (builtRecords g changeargs Bps window blocksize).map stamp := by
  unfold requestedRecords builtRecords
  split_ifs <;> simp [stamp, fifomsg.zero]

theorem sendBlock_false (wr : Nat → Int) (m : fifomsg) (s : SendState) :
    sendBlock wr false m s = Except.ok s := by
  simp [sendBlock]

theorem sendAll_append (wr : Nat → Int) (l1 l2 : List fifomsg) (s : SendState) :
    sendAll wr (l1 ++ l2) s = sendAll wr l1 s >>= sendAll wr l2 := by
  induction l1 generalizing s with
  | nil => rfl
  | cons m ms ih =>
    simp only [List.cons_append, sendAll]
    cases h : sendBlock wr true m s with
    | error e => rfl
    | ok s1 => exact ih s1

theorem sendBlock_eq_sendAll (wr : Nat → Int) (c : Prop) [Decidable c] (m : fifomsg)
    (s : SendState) :
    sendBlock wr (decide c) m s = sendAll wr (if c then [m] else []) s := by
  by_cases h : c
  · simp only [h, decide_True, if_true, sendAll]
    cases sendBlock wr true m s <;> rfl
  · simp [h, sendAll, sendBlock_false]

theorem fifosendBody_eq_sendAll (g : RateConfig) (wr : Nat → Int) (changeargs Bps : Nat)
    (window : Int) (blocksize : Nat) :
    fifosendBody g wr changeargs Bps window blocksize =
      sendAll wr (builtRecords g changeargs Bps window blocksize) ⟨[], []⟩ := by
  unfold fifosendBody builtRecords
  simp only [sendBlock_eq_sendAll, sendAll_append]
  simp only [bind_assoc]

theorem fifosend_outcome (g : RateConfig) (fd : Int) (wr : Nat → Int) (changeargs Bps : Nat)
    (window : Int) (blocksize : Nat) (hfd : 0 ≤ fd) :
    (fifosend g fd wr changeargs Bps window blocksize).2 =
        outcomeState (sendAll wr (builtRecords g changeargs Bps window blocksize) ⟨[], []⟩) ∧
      (fifosend g fd wr changeargs Bps window blocksize).1 =
        if outcomeOk (sendAll wr (builtRecords g changeargs Bps window blocksize) ⟨[], []⟩)
        then 0 else -1 := by
  have h : ¬ fd < 0 := by omega
  unfold fifosend
  simp only [h, if_false, fifosendBody_eq_sendAll]
  cases sendAll wr (builtRecords g changeargs Bps window blocksize) ⟨[], []⟩ <;>
    simp [outcomeState, outcomeOk]

/-- C6: once the channel is open, fifosend hands to write a leading part of the requested
records, in the order verbosity, unit, limit, window, block size, each stamped with the constant
magic and version and carrying its payload; every call but the last was written in full; it
returns 0 with all requested records written in full, or -1 with the last call failed or short
and nothing sent after it; and it returns 0 exactly when every requested record was written in
full. -/
theorem fifosend_emits_requested_in_order (g : RateConfig) (fd : Int) (wr : Nat → Int)
    (changeargs Bps : Nat) (window : Int) (blocksize : Nat) (hfd : 0 ≤ fd) :
    ((fifosend g fd wr changeargs Bps window blocksize).2.calls.map fun c => c.msg) =
        (requestedRecords g changeargs Bps window blocksize).take
          (fifosend g fd wr changeargs Bps window blocksize).2.calls.length ∧
      ((fifosend g fd wr changeargs Bps window blocksize).2.calls.map fun c => c.nwrite) =
        (List.range (fifosend g fd wr changeargs Bps window blocksize).2.calls.length).map wr ∧
      (∀ i, i + 1 < (fifosend g fd wr changeargs Bps window blocksize).2.calls.length →
        wr i = sizeof_fifomsg) ∧
      (((fifosend g fd wr changeargs Bps window blocksize).1 = 0 ∧
          ((fifosend g fd wr changeargs Bps window blocksize).2.calls.map fun c => c.msg) =
            requestedRecords g changeargs Bps window blocksize) ∨
        ((fifosend g fd wr changeargs Bps window blocksize).1 = -1 ∧
          0 < (fifosend g fd wr changeargs Bps window blocksize).2.calls.length ∧
          wr ((fifosend g fd wr changeargs Bps window blocksize).2.calls.length - 1) ≠
            sizeof_fifomsg)) ∧
      ((fifosend g fd wr changeargs Bps window blocksize).1 = 0 ↔
        ∀ i, i < (requestedRecords g changeargs Bps window blocksize).length →
          wr i = sizeof_fifomsg) := by
  obtain ⟨hst, hret⟩ := fifosend_outcome g fd wr changeargs Bps window blocksize hfd
  obtain ⟨new, h1, h2, h3, h4, h5, h6⟩ :=
    sendAll_spec wr (builtRecords g changeargs Bps window blocksize) ⟨[], []⟩
  simp only [List.nil_append, List.length_nil, Nat.zero_add] at h1 h4 h5 h6
  rw [requestedRecords_eq, hst, h1, hret]
  have hlen : ((builtRecords g changeargs Bps window blocksize).map stamp).length =
      (builtRecords g changeargs Bps window blocksize).length := by simp
  refine ⟨h2, h4, h5, ?_, ?_⟩
  · rcases h6 with ⟨ha, hb, _⟩ | ⟨ha, hb, hc⟩
    · left
      refine ⟨by simp [ha], ?_⟩
      rw [h2, hb, ← hlen, List.take_length]
    · right
      exact ⟨by simp [ha], hb, hc⟩
  · rw [hlen]
    rcases h6 with ⟨ha, hb, hc⟩ | ⟨ha, hb, hc⟩
    · simp only [ha, if_true, true_iff]
      rw [← hb]; exact hc
    · simp only [ha]
      constructor
      · intro h; exact absurd h (by decide)
      · intro h
        exact absurd (h (new.length - 1) (by omega)) hc

/-- Instance of C6: all five changes requested, every write in full. -/
theorem fifosend_emits_requested_in_order_witness :
    (0 : Int) ≤ 3 ∧
      ((fifosend cfgVerbose100 3 (fun _ => 16) 31 d100 60 512).1 = 0 ↔
        ∀ i, i < (requestedRecords cfgVerbose100 31 d100 60 512).length →
          (fun _ => (16 : Int)) i = sizeof_fifomsg) :=
  ⟨by decide,
    (fifosend_emits_requested_in_order cfgVerbose100 3 (fun _ => 16) 31 d100 60 512
      (by decide)).2.2.2.2⟩

theorem dne_self (a : Nat) : dne a a = dnan a := by
  simp [dne]

theorem recvSwitch_unit (m : fifomsg) (s : Recv) (h : isUnitType m.type = true) :
    recvSwitch m s =
      if m.type ≠ s.cfg.unit_opt then
        (true, ⟨{ s.cfg with unit := m.Bps, unit_opt := m.type },
          if s.cfg.verbose ≠ 0 then s.stderr ++ [LogLine.unitChanged s.cfg.unit_opt m.type]
          else s.stderr⟩)
      else (true, s) := by
  rw [recvSwitch]
  simp only [h, if_true]

theorem recvSwitch_limit (m : fifomsg) (s : Recv) (h : m.type = '<') :
    recvSwitch m s =
      if dne m.Bps s.cfg.Bps then
        (true, ⟨{ s.cfg with Bps := m.Bps },
          if s.cfg.verbose ≠ 0 then
            s.stderr ++ [LogLine.limitChanged s.cfg.Bps s.cfg.unit s.cfg.unit_opt m.Bps]
          else s.stderr⟩)
      else (true, s) := by
  have hu : isUnitType '<' = false := by decide
  rw [recvSwitch]
  simp only [h, hu, if_true, if_false, Bool.false_eq_true]

theorem recvSwitch_window (m : fifomsg) (s : Recv) (h : m.type = 'w') :
    recvSwitch m s =
      if m.window ≠ s.cfg.window then
        (true, ⟨{ s.cfg with window := m.window },
          if s.cfg.verbose ≠ 0 then s.stderr ++ [LogLine.windowChanged s.cfg.window m.window]
          else s.stderr⟩)
      else (true, s) := by
  have hu : isUnitType 'w' = false := by decide
  have e1 : ¬ ('w' = '<') := by decide
  rw [recvSwitch]
  simp only [h, hu, e1, if_true, if_false, Bool.false_eq_true]

theorem recvSwitch_blocksize (m : fifomsg) (s : Recv) (h : m.type = 's') :
    recvSwitch m s =
      if m.blocksize ≠ s.cfg.blocksize then
        (true, ⟨{ s.cfg with blocksize := m.blocksize },
          if s.cfg.verbose ≠ 0 then
            s.stderr ++ [LogLine.blocksizeChanged s.cfg.blocksize m.blocksize]
          else s.stderr⟩)
      else (true, s) := by
  have hu : isUnitType 's' = false := by decide
  have e1 : ¬ ('s' = '<') := by decide
  have e2 : ¬ ('s' = 'w') := by decide
  rw [recvSwitch]
  simp only [h, hu, e1, e2, if_true, if_false, Bool.false_eq_true]

theorem recvSwitch_verbose (m : fifomsg) (s : Recv) (h : m.type = 'v') :
    recvSwitch m s =
      if m.verbose ≠ s.cfg.verbose then
        (true, ⟨{ s.cfg with verbose := m.verbose },
          if m.verbose ≠ 0 then s.stderr ++ [LogLine.verboseChanged s.cfg.verbose m.verbose]
          else s.stderr⟩)
      else (true, s) := by
  have hu : isUnitType 'v' = false := by decide
  have e1 : ¬ ('v' = '<') := by decide
  have e2 : ¬ ('v' = 'w') := by decide
  have e3 : ¬ ('v' = 's') := by decide
  rw [recvSwitch]
  simp only [h, hu, e1, e2, e3, if_true, if_false, Bool.false_eq_true]

theorem recvSwitch_idempotent (m : fifomsg) (s : Recv) (hty : recognisedType m.type = true)
    (hnan : ¬ (m.type = '<' ∧ dnan m.Bps = true)) :
    recvSwitch m (recvSwitch m s).2 = (true, (recvSwitch m s).2) := by
  simp only [recognisedType, Bool.or_eq_true, decide_eq_true_eq] at hty
  rcases hty with (((h | h) | h) | h) | h
  · simp only [recvSwitch_unit m _ h]
    by_cases hc : m.type = s.cfg.unit_opt
    · simp [hc]
    · simp [hc]
  · simp only [recvSwitch_limit m _ h]
    have hn : dnan m.Bps = false := by
      cases hd : dnan m.Bps
      · rfl
      · exact absurd ⟨h, hd⟩ hnan
    by_cases hc : dne m.Bps s.cfg.Bps = true
    · simp [hc, dne_self, hn]
    · simp [hc]
  · simp only [recvSwitch_window m _ h]
    by_cases hc : m.window = s.cfg.window
    · simp [hc]
    · simp [hc]
  · simp only [recvSwitch_blocksize m _ h]
    by_cases hc : m.blocksize = s.cfg.blocksize
    · simp [hc]
    · simp [hc]
  · simp only [recvSwitch_verbose m _ h]
    by_cases hc : m.verbose = s.cfg.verbose
    · simp [hc]
    · simp [hc]

theorem recvSwitch_msgok (m : fifomsg) (s : Recv) (hty : recognisedType m.type = true) :
    (recvSwitch m s).1 = true := by
  simp only [recognisedType, Bool.or_eq_true, decide_eq_true_eq] at hty
  rcases hty with (((h | h) | h) | h) | h
  · rw [recvSwitch_unit m _ h]; split_ifs <;> rfl
  · rw [recvSwitch_limit m _ h]; split_ifs <;> rfl
  · rw [recvSwitch_window m _ h]; split_ifs <;> rfl
  · rw [recvSwitch_blocksize m _ h]; split_ifs <;> rfl
  · rw [recvSwitch_verbose m _ h]; split_ifs <;> rfl

theorem recvOne_accepted (r : ReadResult) (s : Recv) (h : accepted r = true) :
    recvOne r s = (recvSwitch r.msg s).2 := by
  simp only [accepted, Bool.and_eq_true, decide_eq_true_eq] at h
  obtain ⟨⟨⟨h1, h2⟩, h3⟩, h4⟩ := h
  unfold recvOne
  simp [h1, h2, h3, recvSwitch_msgok r.msg s h4]

/-- Re-sending an accepted record changes and logs nothing, unless it is a limit record whose
payload is a NaN. -/
theorem fiforecv_resend_idempotent (r : ReadResult) (s : Recv) (h : accepted r = true)
    (hnan : ¬ (r.msg.type = '<' ∧ dnan r.msg.Bps = true)) :
    fiforecv [r, r] s = fiforecv [r] s := by
  have hpos : ¬ r.nread ≤ 0 := by
    simp only [accepted, Bool.and_eq_true, decide_eq_true_eq] at h
    rw [h.1.1.1]; decide
  have hty : recognisedType r.msg.type = true := by
    simp only [accepted, Bool.and_eq_true] at h
    exact h.2
  simp only [fiforecv, hpos, if_false, recvOne_accepted _ _ h,
    recvSwitch_idempotent r.msg s hty hnan]

/-- A well-formed window record with payload 120 leaves the window at 120; the field is written,
and the change logged under verbosity, only when the window was not 120 before. -/
theorem fiforecv_window_120 (s : Recv) :
    (fiforecv [wellFormed 'w' 120] s).2.cfg.window = 120 ∧
      (s.cfg.window = 120 → (fiforecv [wellFormed 'w' 120] s).2 = s) ∧
      (s.cfg.window ≠ 120 →
        (fiforecv [wellFormed 'w' 120] s).2 =
          ⟨{ s.cfg with window := 120 },
            if s.cfg.verbose ≠ 0 then s.stderr ++ [LogLine.windowChanged s.cfg.window 120]
            else s.stderr⟩) := by
  have hacc : accepted (wellFormed 'w' 120) = true := by decide
  have hpos : ¬ (wellFormed 'w' 120).nread ≤ 0 := by decide
  have hw : (wellFormed 'w' 120).msg.window = 120 := by decide
  have ht : (wellFormed 'w' 120).msg.type = 'w' := rfl
  have hu : isUnitType 'w' = false := by decide
  have hl : ¬ ('w' = '<') := by decide
  simp only [fiforecv, hpos, if_false, recvOne_accepted _ _ hacc]
  unfold recvSwitch
  simp only [ht, hu, hl, hw, if_false, if_true, Bool.false_eq_true]
  by_cases h : s.cfg.window = 120
  · simp [h]
  · have h2 : ¬ (120 = s.cfg.window) := fun e => h e.symm
    simp [h, h2]

/-- C3: with verbosity on, a well-formed limit record whose payload is a NaN is logged and
applied again when it is sent a second time: two limit-change lines against one. -/
theorem fiforecv_nan_limit_logged_twice :
    (fiforecv [wellFormed '<' dNaN, wellFormed '<' dNaN] ⟨cfgVerbose100, []⟩).2.stderr =
        [LogLine.limitChanged d100 d1 'B' dNaN, LogLine.limitChanged dNaN d1 'B' dNaN] ∧
      (fiforecv [wellFormed '<' dNaN] ⟨cfgVerbose100, []⟩).2.stderr =
        [LogLine.limitChanged d100 d1 'B' dNaN] := by
  decide

/-- C7: a listener with verbosity off and a rate that differs from r receives the batch fifosend
emits for verbosity on and limit r, all writes in full: the verbosity record comes first and is
applied first, the limit-change line is logged after it, and the listener ends with verbosity on
and rate r. -/
theorem verbose_then_limit_is_logged (g : RateConfig) (s : Recv) (fd : Int) (wr : Nat → Int)
    (r : Nat) (window : Int) (blocksize : Nat) (hg : g.verbose = 1) (hs : s.cfg.verbose = 0)
    (hr : r < 2 ^ 64) (hne : dne r s.cfg.Bps = true) (hfd : 0 ≤ fd)
    (hwr : ∀ i, wr i = sizeof_fifomsg) :
    (fifosend g fd wr (CHANGE_VERBOSE ||| CHANGE_LIMIT) r window blocksize).1 = 0 ∧
      ((fifosend g fd wr (CHANGE_VERBOSE ||| CHANGE_LIMIT) r window blocksize).2.calls.map
        fun c => c.msg) =
        [⟨MESSAGE_MAGIC, 'v', MESSAGE_VERSION, 1⟩, ⟨MESSAGE_MAGIC, '<', MESSAGE_VERSION, r⟩] ∧
      (fiforecv
          (delivered (fifosend g fd wr (CHANGE_VERBOSE ||| CHANGE_LIMIT) r window blocksize).2.calls)
          s).2 =
        ⟨{ s.cfg with verbose := 1, Bps := r },
          s.stderr ++ [LogLine.verboseChanged 0 1,
            LogLine.limitChanged s.cfg.Bps s.cfg.unit s.cfg.unit_opt r]⟩ := by
  have hfd2 : ¬ fd < 0 := by omega
  have hrm : r % 2 ^ 64 = r := Nat.mod_eq_of_lt hr
  have h16 : ¬ (sizeof_fifomsg = -1) := by decide
  have hcv : (CHANGE_VERBOSE ||| CHANGE_LIMIT) &&& CHANGE_VERBOSE ≠ 0 := by decide
  have hcu : ¬ ((CHANGE_VERBOSE ||| CHANGE_LIMIT) &&& CHANGE_UNIT ≠ 0) := by decide
  have hcl : (CHANGE_VERBOSE ||| CHANGE_LIMIT) &&& CHANGE_LIMIT ≠ 0 := by decide
  have hcw : ¬ ((CHANGE_VERBOSE ||| CHANGE_LIMIT) &&& CHANGE_WINDOW ≠ 0) := by decide
  have hcs : ¬ ((CHANGE_VERBOSE ||| CHANGE_LIMIT) &&& CHANGE_BLOCKSIZE ≠ 0) := by decide
  have hsend : fifosend g fd wr (CHANGE_VERBOSE ||| CHANGE_LIMIT) r window blocksize =
      (0, ⟨[⟨⟨MESSAGE_MAGIC, 'v', MESSAGE_VERSION, 1⟩, sizeof_fifomsg⟩,
            ⟨⟨MESSAGE_MAGIC, '<', MESSAGE_VERSION, r⟩, sizeof_fifomsg⟩], []⟩) := by
    unfold fifosend fifosendBody
    simp only [hfd2, if_false, hcv, hcu, hcl, hcw, hcs, decide_True, decide_False, sendBlock,
      writemsg, hwr, h16, hg, hrm]
    rfl
  rw [hsend]
  refine ⟨rfl, rfl, ?_⟩
  have hp : ¬ (sizeof_fifomsg ≤ 0) := by decide
  have hv : (⟨MESSAGE_MAGIC, 'v', MESSAGE_VERSION, 1⟩ : fifomsg).verbose = 1 := by decide
  have hb : (⟨MESSAGE_MAGIC, '<', MESSAGE_VERSION, r⟩ : fifomsg).Bps = r := by
    unfold fifomsg.Bps; exact hrm
  have ha1 : accepted ⟨sizeof_fifomsg, ⟨MESSAGE_MAGIC, 'v', MESSAGE_VERSION, 1⟩⟩ = true := by
    decide
  have ha2 : accepted ⟨sizeof_fifomsg, ⟨MESSAGE_MAGIC, '<', MESSAGE_VERSION, r⟩⟩ = true := by
    simp [accepted, recognisedType]
  have hu1 : isUnitType 'v' = false := by decide
  have hu2 : isUnitType '<' = false := by decide
  have e1 : ¬ ('v' = '<') := by decide
  have e2 : ¬ ('v' = 'w') := by decide
  have e3 : ¬ ('v' = 's') := by decide
  simp only [delivered, List.map_cons, List.map_nil, fiforecv, hp, if_false,
    recvOne_accepted _ _ ha1, recvOne_accepted _ _ ha2]
  simp [recvSwitch, hu1, hu2, e1, e2, e3, hv, hb, hs, hne]

/-- Instance of C7: a quiet listener at 100 bytes per second receives verbosity on and limit
200. -/
theorem verbose_then_limit_is_logged_witness :
    (cfgVerbose100.verbose = 1 ∧ cfgQuiet100.verbose = 0 ∧ d200 < 2 ^ 64 ∧
        dne d200 cfgQuiet100.Bps = true ∧ (0 : Int) ≤ 3 ∧
        ∀ i : Nat, (fun _ => (16 : Int)) i = sizeof_fifomsg) ∧
      (fiforecv
          (delivered (fifosend cfgVerbose100 3 (fun _ => 16) (CHANGE_VERBOSE ||| CHANGE_LIMIT)
            d200 60 512).2.calls)
          ⟨cfgQuiet100, []⟩).2 =
        ⟨{ cfgQuiet100 with verbose := 1, Bps := d200 },
          [] ++ [LogLine.verboseChanged 0 1,
            LogLine.limitChanged cfgQuiet100.Bps cfgQuiet100.unit cfgQuiet100.unit_opt d200]⟩ :=
  ⟨⟨by decide, by decide, by decide, by decide, by decide, fun _ => rfl⟩,
    (verbose_then_limit_is_logged cfgVerbose100 ⟨cfgQuiet100, []⟩ 3 (fun _ => 16) d200 60 512
      (by decide) (by decide) (by decide) (by decide) (by decide) (fun _ => rfl)).2.2⟩

theorem recvOne_not_accepted (r : ReadResult) (s : Recv) (h : accepted r = false) :
    (recvOne r s).cfg = s.cfg := by
  by_cases hp : 0 < r.nread
  · have hd : discarded r = true := by simp [discarded, hp, h]
    rw [recvOne_discarded r s hd]
  · have hne : ¬ (r.nread = sizeof_fifomsg) := by
      intro e; rw [e] at hp; exact hp (by decide)
    unfold recvOne
    simp [hne, hp]

theorem recvOne_preserves_valid (r : ReadResult) (s : Recv) (hv : validConfig s.cfg)
    (hb : payloadInBounds r) : validConfig (recvOne r s).cfg := by
  cases hacc : accepted r
  · rw [recvOne_not_accepted r s hacc]; exact hv
  · rw [recvOne_accepted r s hacc]
    have hty : recognisedType r.msg.type = true := by
      simp only [accepted, Bool.and_eq_true] at hacc
      exact hacc.2
    simp only [recognisedType, Bool.or_eq_true, decide_eq_true_eq] at hty
    obtain ⟨hv1, hv2, hv3⟩ := hv
    obtain ⟨hb1, hb2, hb3⟩ := hb
    rcases hty with (((h | h) | h) | h) | h
    · rw [recvSwitch_unit _ _ h]; split_ifs <;> exact ⟨hv1, hv2, hv3⟩
    · rw [recvSwitch_limit _ _ h]; split_ifs
      · exact ⟨hb1 h, hv2, hv3⟩
      · exact ⟨hb1 h, hv2, hv3⟩
      · exact ⟨hv1, hv2, hv3⟩
    · rw [recvSwitch_window _ _ h]; split_ifs
      · exact ⟨hv1, hb2 h, hv3⟩
      · exact ⟨hv1, hb2 h, hv3⟩
      · exact ⟨hv1, hv2, hv3⟩
    · rw [recvSwitch_blocksize _ _ h]; split_ifs
      · exact ⟨hv1, hv2, hb3 h⟩
      · exact ⟨hv1, hv2, hb3 h⟩
      · exact ⟨hv1, hv2, hv3⟩
    · rw [recvSwitch_verbose _ _ h]; split_ifs <;> exact ⟨hv1, hv2, hv3⟩

/-- C8, as amended: a configuration with limit above zero, window at least one and block size
at least one keeps these bounds through fiforecv on every batch whose limit, window and
block-size records carry payloads within the same bounds. -/
theorem fiforecv_preserves_valid (reads : List ReadResult) (s : Recv) (hv : validConfig s.cfg)
    (hb : ∀ r, r ∈ reads → payloadInBounds r) : validConfig (fiforecv reads s).2.cfg := by
  induction reads generalizing s with
  | nil => exact hv
  | cons r rs ih =>
    unfold fiforecv
    split_ifs
    · exact hv
    · exact ih (recvOne r s)
        (recvOne_preserves_valid r s hv (hb r (List.mem_cons_self r rs)))
        (fun q hq => hb q (List.mem_cons_of_mem r hq))

/-- Instance of C8 as amended: a window record with payload 120 on a valid configuration. -/
theorem fiforecv_preserves_valid_witness :
    (validConfig cfgVerbose100 ∧ ∀ r, r ∈ [wellFormed 'w' 120] → payloadInBounds r) ∧
      validConfig (fiforecv [wellFormed 'w' 120] ⟨cfgVerbose100, []⟩).2.cfg :=
  ⟨⟨⟨by decide, by decide, by decide⟩, fun r hr => by
      rw [List.mem_singleton] at hr
      subst hr
      exact ⟨fun h => absurd h (by decide), fun _ => by decide, fun h => absurd h (by decide)⟩⟩,
    fiforecv_preserves_valid [wellFormed 'w' 120] ⟨cfgVerbose100, []⟩
      ⟨by decide, by decide, by decide⟩ (fun r hr => by
        rw [List.mem_singleton] at hr
        subst hr
        exact ⟨fun h => absurd h (by decide), fun _ => by decide,
          fun h => absurd h (by decide)⟩)⟩

/-- C8 as stated fails: a well-formed window record with payload 0, applied by fiforecv to a
valid configuration, leaves the window at 0. -/
theorem fiforecv_applies_zero_window :
    validConfig cfgVerbose100 ∧
      (fiforecv [wellFormed 'w' 0] ⟨cfgVerbose100, []⟩).2.cfg.window = 0 ∧
      ¬ validConfig (fiforecv [wellFormed 'w' 0] ⟨cfgVerbose100, []⟩).2.cfg :=
  ⟨⟨by decide, by decide, by decide⟩, by decide, fun h => absurd h.2.1 (by decide)⟩

/-! ## Calibration and sleeping: properties -/

theorem subsecs_pos_int (api : TimeApi) : (0 : Int) < TIME_1SEC_IN_SUBSECS api := by
  cases api <;> simp [TIME_1SEC_IN_SUBSECS]

/-- Outside the range of `time_t` the bounds on the duration do not hold: a sync of 2^63 seconds
is slept on, in the model, with a whole-second part of -2^63. -/
theorem sleepRequest_out_of_range :
    sleepRequest TimeApi.timespec 0 (2 ^ 63) = some ⟨-2 ^ 63, 0⟩ := by
  simp only [sleepRequest, synctime, modf, castInt, truncate, TIME_1SEC_IN_SUBSECS]
  norm_num

theorem dval_d100 : dval d100 = 100 := by norm_num [dval, d100]

theorem toInt32_of_lt (i : Int) (h0 : 0 ≤ i) (h1 : i < 2 ^ 31) : toInt32 i = i := by
  unfold toInt32
  have hm : i % 2 ^ 32 = i := Int.emod_eq_of_lt h0 (by omega)
  have h2 : i.toNat < 2 ^ 31 := by omega
  rw [hm, if_pos h2]

theorem toInt32_of_ge (i : Int) (h0 : 2 ^ 31 ≤ i) (h1 : i < 2 ^ 32) :
    toInt32 i = i - 2 ^ 32 := by
  unfold toInt32
  have hm : i % 2 ^ 32 = i := Int.emod_eq_of_lt (by omega) h1
  have h2 : ¬ (i.toNat < 2 ^ 31) := by omega
  rw [hm, if_neg h2]

theorem windowReset_eq (api : TimeApi) (fd : Int) (p : Pass) (nread : Nat) (e : Engine)
    (now : TIME_STRUCT) (hnow : p.now = some now) :
    windowReset api fd p nread e =
      Except.ok (startWindow now nread
          (pollAtReset fd p.fifo (reportAtReset api now (raiseFlags p e))),
        BSECS ((startWindow now nread
            (pollAtReset fd p.fifo (reportAtReset api now (raiseFlags p e)))).bytesread : ℚ)
          (dval (startWindow now nread
            (pollAtReset fd p.fifo (reportAtReset api now (raiseFlags p e)))).cfg.Bps)) := by
  unfold windowReset
  rw [hnow]

theorem reportAtReset_cfg (api : TimeApi) (now : TIME_STRUCT) (e : Engine) :
    (reportAtReset api now e).cfg = e.cfg ∧ (reportAtReset api now e).blocksize = e.blocksize ∧
      (reportAtReset api now e).totalbytes = e.totalbytes ∧
      (reportAtReset api now e).bytesread = e.bytesread ∧
      (reportAtReset api now e).starttime = e.starttime ∧
      (reportAtReset api now e).sleeps = e.sleeps ∧
      (reportAtReset api now e).done = e.done := by
  unfold reportAtReset
  split_ifs <;> exact ⟨rfl, rfl, rfl, rfl, rfl, rfl, rfl⟩

theorem pollAtReset_fields (fd : Int) (reads : List ReadResult) (e : Engine) :
    (pollAtReset fd reads e).cfg =
        (if fd ≥ 0 then (fiforecv reads ⟨e.cfg, []⟩).2.cfg else e.cfg) ∧
      (pollAtReset fd reads e).blocksize = e.blocksize ∧
      (pollAtReset fd reads e).totalbytes = e.totalbytes ∧
      (pollAtReset fd reads e).bytesread = e.bytesread ∧
      (pollAtReset fd reads e).starttime = e.starttime ∧
      (pollAtReset fd reads e).elapsedtime = e.elapsedtime ∧
      (pollAtReset fd reads e).sleeps = e.sleeps ∧
      (pollAtReset fd reads e).done = e.done := by
  unfold pollAtReset
  split_ifs
  · exact ⟨(fiforecv_cfg_congr reads _ ⟨e.cfg, []⟩ (by rfl)).1, rfl, rfl, rfl, rfl, rfl, rfl, rfl⟩
  · exact ⟨rfl, rfl, rfl, rfl, rfl, rfl, rfl, rfl⟩

theorem startWindow_fields (now : TIME_STRUCT) (nread : Nat) (e : Engine) :
    (startWindow now nread e).elapsedtime = ⟨0, 0⟩ ∧ (startWindow now nread e).starttime = now ∧
      (startWindow now nread e).bytesread = toInt32 (nread : Int) ∧
      (startWindow now nread e).byteswritten = 0 ∧
      (startWindow now nread e).totalbytes = e.totalbytes ∧
      (startWindow now nread e).blocksize = e.blocksize ∧
      (startWindow now nread e).cfg = e.cfg ∧
      (startWindow now nread e).sleeps = e.sleeps ∧
      (startWindow now nread e).done = e.done := by
  simp only [startWindow, and_self]

/-- What the WindowReset branch leaves behind, in terms of the state it starts from. -/
theorem windowReset_spec (api : TimeApi) (fd : Int) (p : Pass) (nread : Nat) (e : Engine)
    (now : TIME_STRUCT) (hnow : p.now = some now) :
    ∃ r, windowReset api fd p nread e = Except.ok r ∧
      r.1.elapsedtime = ⟨0, 0⟩ ∧ r.1.starttime = now ∧ r.1.bytesread = toInt32 (nread : Int) ∧
      r.1.byteswritten = 0 ∧ r.1.totalbytes = e.totalbytes ∧ r.1.blocksize = e.blocksize ∧
      r.1.cfg = (if fd ≥ 0 then (fiforecv p.fifo ⟨e.cfg, []⟩).2.cfg else e.cfg) ∧
      r.2 = BSECS (toInt32 (nread : Int) : ℚ) (dval r.1.cfg.Bps) := by
  obtain ⟨h1, h2, h3, _, _, _, _⟩ := reportAtReset_cfg api now (raiseFlags p e)
  obtain ⟨g1, g2, g3, _, _, _, _, _⟩ :=
    pollAtReset_fields fd p.fifo (reportAtReset api now (raiseFlags p e))
  obtain ⟨s1, s2, s3, s4, s5, s6, s7, _, _⟩ := startWindow_fields now nread
    (pollAtReset fd p.fifo (reportAtReset api now (raiseFlags p e)))
  refine ⟨_, windowReset_eq api fd p nread e now hnow, s1, s2, s3, s4, ?_, ?_, ?_, ?_⟩
  · rw [s5, g3, h3]; rfl
  · rw [s6, g2, h2]; rfl
  · rw [s7, g1, h1]; rfl
  · simp only [s3]

/-- For blocks below 2^31 bytes: a counter that the block takes past the int32 range forces the
WindowReset branch, which continues with the counter equal to nread. -/
theorem overflow_forces_reset (e : Engine) (nread : Nat) (h0 : 0 ≤ e.bytesread)
    (h1 : e.bytesread < 2 ^ 31) (hn : (nread : Int) < 2 ^ 31)
    (hov : 2 ^ 31 ≤ e.bytesread + (nread : Int)) :
    windowTest (addRead nread e) = true ∧
      ∀ (api : TimeApi) (fd : Int) (p : Pass) (r : Engine × ℚ),
        windowReset api fd p nread (addRead nread e) = Except.ok r →
          r.1.bytesread = (nread : Int) ∧ 0 ≤ r.1.bytesread ∧
            r.2 = BSECS (nread : ℚ) (dval r.1.cfg.Bps) := by
  constructor
  · have : (addRead nread e).bytesread < 0 := by
      simp only [addRead]
      rw [toInt32_of_ge _ hov (by omega)]
      omega
    simp [windowTest, this]
  · intro api fd p r hr
    cases hp : p.now with
    | none => simp [windowReset, hp] at hr
    | some now =>
      obtain ⟨r2, h2, _, _, hb, _, _, _, _, hs⟩ :=
        windowReset_spec api fd p nread (addRead nread e) now hp
      rw [hr] at h2
      cases h2
      have ht : toInt32 (nread : Int) = (nread : Int) :=
        toInt32_of_lt _ (Int.natCast_nonneg nread) hn
      rw [ht] at hb hs
      refine ⟨hb, by rw [hb]; exact Int.natCast_nonneg nread, ?_⟩
      rw [hs]; simp

/-- C4: the rollover check misses blocks of 2^31 bytes and more.  With the counter at 0 and a
block of 2^31 bytes the WindowReset branch is taken but goes on with a counter of -2^31 and a
negative sync; with a block of 2^32 bytes the counter wraps to 0, the check does not fire and
the ComputeSync branch goes on with the wrapped counter. -/
theorem rollover_check_misses_large_blocks :
    windowTest (addRead 2147483648 (midWindow 2147483648)) = true ∧
      (windowReset TimeApi.timespec (-1) (quietPass ⟨6, 0⟩) 2147483648
          (addRead 2147483648 (midWindow 2147483648))).map (fun r => (r.1.bytesread, r.2)) =
        Except.ok (-2147483648, -2147483648 / 100) ∧
      windowTest (addRead 4294967296 (midWindow 4294967296)) = false ∧
      (addRead 4294967296 (midWindow 4294967296)).bytesread = 0 := by
  refine ⟨by decide, ?_, by decide, by decide⟩
  simp [windowReset, startWindow, pollAtReset, reportAtReset, raiseFlags, quietPass, midWindow,
    cfgQuiet100, addRead, toInt32, BSECS, dval_d100, Except.map]

/-- C9: a block of 3 * 2^30 bytes read with the counter at 0 takes the WindowReset branch, which
leaves the byte-read counter at -2^30, not at nread, and a sync target of -2^30 / rate. -/
theorem windowReset_truncates_large_nread :
    windowTest (addRead 3221225472 (midWindow 3221225472)) = true ∧
      (windowReset TimeApi.timespec (-1) (quietPass ⟨6, 0⟩) 3221225472
          (addRead 3221225472 (midWindow 3221225472))).map (fun r => (r.1.bytesread, r.2)) =
        Except.ok (-1073741824, -1073741824 / 100) := by
  refine ⟨by decide, ?_⟩
  simp [windowReset, startWindow, pollAtReset, reportAtReset, raiseFlags, quietPass, midWindow,
    cfgQuiet100, addRead, toInt32, BSECS, dval_d100, Except.map]

/-! ## Block size: properties -/

theorem ok_bind {α β : Type} (a : α) (f : α → Except Stop β) : (Except.ok a >>= f) = f a := rfl

theorem error_bind {α β : Type} (x : Stop) (f : α → Except Stop β) :
    ((Except.error x : Except Stop α) >>= f) = Except.error x := rfl

theorem sleepThen_nil (api : TimeApi) (sm : ℚ) (fd : Int) (e : Engine) (sync : ℚ) :
    sleepThen api sm fd false [] (e, sync) =
      Except.ok { e with sleeps := e.sleeps ++ (sleepRequest api sm sync).toList } := by
  rw [sleepThen]
  cases sleepRequest api sm sync <;> simp

theorem pendingResize_reached :
    mainLoop TimeApi.timespec (1 / 1000000) 3 [resizeEnv1, resizeEnv2]
        (loopEntry cfgQuiet100 d100 60 512 ⟨5, 0⟩ []) = Except.ok pendingResize := by
  simp [mainLoop, iteration, iterationBody, resizeBlock, readLoop, addRead, windowTest,
    windowReset, computeSync, pollAtResync, measureElapsed, reportAtResync, TIMERSUB, TSECS,
    startWindow, pollAtReset, reportAtReset, raiseFlags, pollFifo, sleepThen_nil, sleepRequest,
    synctime, modf, castInt, truncate, writeBlock, writeLoop, loopEntry, resizeEnv1, resizeEnv2,
    pendingResize, quietPass, cfgQuiet100, toInt32, ok_bind, error_bind, fiforecv, recvOne,
    recvSwitch, wellFormed, isUnitType, fifomsg.blocksize, sizeof_fifomsg, MESSAGE_MAGIC,
    MESSAGE_VERSION, BSECS, dval_d100, TIME_1SEC_IN_SUBSECS]
  norm_num

theorem unitdiv_cases (n : Nat) :
    (n < 10000 ∧ unitdiv n = (n / 1024 ^ 0, 'B') ∧ unitIndex n = 0) ∨
    (10000 ≤ n ∧ n < 10000 * 1024 ^ 1 ∧ unitdiv n = (n / 1024 ^ 1, 'K') ∧ unitIndex n = 1) ∨
    (10000 * 1024 ^ 1 ≤ n ∧ n < 10000 * 1024 ^ 2 ∧ unitdiv n = (n / 1024 ^ 2, 'M') ∧
      unitIndex n = 2) ∨
    (10000 * 1024 ^ 2 ≤ n ∧ n < 10000 * 1024 ^ 3 ∧ unitdiv n = (n / 1024 ^ 3, 'G') ∧
      unitIndex n = 3) ∨
    (10000 * 1024 ^ 3 ≤ n ∧ n < 10000 * 1024 ^ 4 ∧ unitdiv n = (n / 1024 ^ 4, 'T') ∧
      unitIndex n = 4) ∨
    (10000 * 1024 ^ 4 ≤ n ∧ n < 10000 * 1024 ^ 5 ∧ unitdiv n = (n / 1024 ^ 5, 'P') ∧
      unitIndex n = 5) ∨
    (10000 * 1024 ^ 5 ≤ n ∧ unitdiv n = (n / 1024 ^ 6, 'E') ∧ unitIndex n = 6) := by
  by_cases h0 : n < 10000
  · left
    refine ⟨h0, ?_, ?_⟩
    · simp [unitdiv, unitdivLoop, h0]
    · simp [unitIndex, List.range_succ_eq_map, List.find?, h0]
  right
  by_cases h1 : n < 10240000
  · left
    refine ⟨by omega, by omega, ?_, ?_⟩
    · simp [unitdiv, unitdivLoop, h0, h1]
    · simp [unitIndex, List.range_succ_eq_map, List.find?, h0, h1]
  right
  by_cases h2 : n < 10485760000
  · left
    refine ⟨by omega, by omega, ?_, ?_⟩
    · simp [unitdiv, unitdivLoop, h0, h1, h2]
    · simp [unitIndex, List.range_succ_eq_map, List.find?, h0, h1, h2]
  right
  by_cases h3 : n < 10737418240000
  · left
    refine ⟨by omega, by omega, ?_, ?_⟩
    · simp [unitdiv, unitdivLoop, h0, h1, h2, h3]
    · simp [unitIndex, List.range_succ_eq_map, List.find?, h0, h1, h2, h3]
  right
  by_cases h4 : n < 10995116277760000
  · left
    refine ⟨by omega, by omega, ?_, ?_⟩
    · simp [unitdiv, unitdivLoop, h0, h1, h2, h3, h4]
    · simp [unitIndex, List.range_succ_eq_map, List.find?, h0, h1, h2, h3, h4]
  right
  by_cases h5 : n < 11258999068426240000
  · left
    refine ⟨by omega, by omega, ?_, ?_⟩
    · simp [unitdiv, unitdivLoop, h0, h1, h2, h3, h4, h5]
    · simp [unitIndex, List.range_succ_eq_map, List.find?, h0, h1, h2, h3, h4, h5]
  right
  refine ⟨by omega, ?_, ?_⟩
  · simp [unitdiv, unitdivLoop, h0, h1, h2, h3, h4, h5]
  · simp [unitIndex, List.range_succ_eq_map, List.find?, h0, h1, h2, h3, h4, h5]
theorem scaledCount_of_index (n i : Nat) (c : Char) (hi : unitIndex n = i) (h6 : i ≤ 6)
    (hc : "BKMGTPE".toList.getD i (Char.ofNat 0) = c) : scaledCount n = (n / 1024 ^ i, c) := by
  unfold scaledCount
  rw [hi, hc]
  have hlt : 1024 ^ i < 2 ^ 64 :=
    lt_of_le_of_lt (Nat.pow_le_pow_right (by norm_num) h6) (by norm_num)
  rw [Nat.mod_eq_of_lt hlt]

theorem below_of_index (n i j : Nat) (h : 10000 * 1024 ^ i ≤ n) (hj : j ≤ i) :
    10000 * 1024 ^ j ≤ n :=
  le_trans (Nat.mul_le_mul_left _ (Nat.pow_le_pow_right (by norm_num) hj)) h

/-- C11: for every unsigned 64-bit byte count n, unitdiv returns the pair of n divided by 1024^i
and the i-th letter of "BKMGTPE", where i is the least index in 0..6 with n < 10000 * 1024^i,
the products taken modulo 2^64, and 6 when there is none; the scaled value is below 10000, and
n < 10000 comes back unchanged with the unit B. -/
theorem unitdiv_scales_below_threshold (n : Nat) (hn : n < 2 ^ 64) :
    unitdiv n = scaledCount n ∧ unitIndex n ≤ 6 ∧
      (unitdiv n).1 = n / 1024 ^ unitIndex n ∧
      (unitdiv n).2 = "BKMGTPE".toList.getD (unitIndex n) (Char.ofNat 0) ∧
      (∀ j, j < unitIndex n → 10000 * 1024 ^ j ≤ n) ∧
      (unitIndex n < 6 → n < 10000 * 1024 ^ unitIndex n) ∧
      (unitdiv n).1 < 10000 ∧ (n < 10000 → unitdiv n = (n, 'B')) := by
  have key : ∀ (i : Nat) (c : Char), i ≤ 6 → unitdiv n = (n / 1024 ^ i, c) → unitIndex n = i →
      "BKMGTPE".toList.getD i (Char.ofNat 0) = c → (∀ j, j < i → 10000 * 1024 ^ j ≤ n) →
      n < 10000 * 1024 ^ i →
      unitdiv n = scaledCount n ∧ unitIndex n ≤ 6 ∧
        (unitdiv n).1 = n / 1024 ^ unitIndex n ∧
        (unitdiv n).2 = "BKMGTPE".toList.getD (unitIndex n) (Char.ofNat 0) ∧
        (∀ j, j < unitIndex n → 10000 * 1024 ^ j ≤ n) ∧
        (unitIndex n < 6 → n < 10000 * 1024 ^ unitIndex n) ∧
        (unitdiv n).1 < 10000 := by
    intro i c h6 hu hi hc hlow hup
    refine ⟨?_, ?_, ?_, ?_, ?_, ?_, ?_⟩
    · rw [hu, scaledCount_of_index n i c hi h6 hc]
    · rw [hi]; exact h6
    · rw [hu, hi]
    · rw [hu, hi, hc]
    · rw [hi]; exact hlow
    · rw [hi]; exact fun _ => hup
    · rw [hu]
      exact (Nat.div_lt_iff_lt_mul (by positivity)).mpr hup
  have hsmall : n < 10000 → unitdiv n = (n, 'B') := by
    intro h0
    simp [unitdiv, unitdivLoop, h0]
  have hall : unitdiv n = scaledCount n ∧ unitIndex n ≤ 6 ∧
      (unitdiv n).1 = n / 1024 ^ unitIndex n ∧
      (unitdiv n).2 = "BKMGTPE".toList.getD (unitIndex n) (Char.ofNat 0) ∧
      (∀ j, j < unitIndex n → 10000 * 1024 ^ j ≤ n) ∧
      (unitIndex n < 6 → n < 10000 * 1024 ^ unitIndex n) ∧
      (unitdiv n).1 < 10000 := by
    rcases unitdiv_cases n with ⟨h, hu, hi⟩ | ⟨hl, h, hu, hi⟩ | ⟨hl, h, hu, hi⟩ |
      ⟨hl, h, hu, hi⟩ | ⟨hl, h, hu, hi⟩ | ⟨hl, h, hu, hi⟩ | ⟨hl, hu, hi⟩
    · exact key 0 'B' (by norm_num) hu hi (by decide) (fun j hj => absurd hj (by omega))
        (by simpa using h)
    · exact key 1 'K' (by norm_num) hu hi (by decide)
        (fun j hj => below_of_index n 0 j (by simpa using hl) (by omega)) h
    · exact key 2 'M' (by norm_num) hu hi (by decide)
        (fun j hj => below_of_index n 1 j hl (by omega)) h
    · exact key 3 'G' (by norm_num) hu hi (by decide)
        (fun j hj => below_of_index n 2 j hl (by omega)) h
    · exact key 4 'T' (by norm_num) hu hi (by decide)
        (fun j hj => below_of_index n 3 j hl (by omega)) h
    · exact key 5 'P' (by norm_num) hu hi (by decide)
        (fun j hj => below_of_index n 4 j hl (by omega)) h
    · exact key 6 'E' (by norm_num) hu hi (by decide)
        (fun j hj => below_of_index n 5 j hl (by omega))
        (lt_of_lt_of_le hn (by norm_num))
  obtain ⟨a1, a2, a3, a4, a5, a6, a7⟩ := hall
  exact ⟨a1, a2, a3, a4, a5, a6, a7, hsmall⟩

/-- Instance of C11: 123456789 bytes are shown as 117 M. -/
theorem unitdiv_scales_below_threshold_witness :
    123456789 < 2 ^ 64 ∧ unitdiv 123456789 = scaledCount 123456789 ∧
      (unitdiv 123456789).1 < 10000 :=
  ⟨by norm_num, (unitdiv_scales_below_threshold 123456789 (by norm_num)).1,
    (unitdiv_scales_below_threshold 123456789 (by norm_num)).2.2.2.2.2.2.1⟩

end Throttle
